import Mathlib

/-!
# Verification of the go-xmpp client core (`xmpp.go`)

A shallow embedding of the stream-negotiation state machine and the
qualified-name stanza dispatcher of `xmpp.go`, together with proofs about
the behaviour the specification describes.

Modelling conventions:

* XML input is modelled at the level of parsed element trees (`XmlTree`),
  i.e. after tokenisation, namespace resolution and entity decoding.  Text
  nodes hold the decoded character data; namespaces on elements are the
  resolved ones (children written without an explicit `xmlns` inherit the
  enclosing default namespace, exactly as a re-parse of the encoder's
  output produces them).
* The decoder input stream is a list of top-level trees followed by a
  terminal read outcome (`TermE`): `eof` for a clean close (Go's `io.EOF`)
  or `err` for any other transport/parse failure.  Go's `xml.Decoder.Token`
  returns that terminal outcome on every read past the end of the list.
* `log.Fatal` (which prints and calls `os.Exit(1)`) is modelled by the
  `ReadResult.fatal` constructor: a process abort, distinguished from an
  ordinary returned error value.
* Go struct field semantics follow `encoding/xml`: attribute fields with
  tag `xml:"name,attr"` read the attribute of that name (the last matching
  attribute assignment wins), element fields match sub-elements by local
  name (a tag without a namespace matches any namespace), a string field
  receives the concatenated top-level character data of its element, a
  field named `XMLName` of type `xml.Name` records the element name, and
  sub-elements matching no field are skipped.
-/

namespace Xmpp

/-- A qualified XML name: the (namespace, local-name) pair, as in Go's
`xml.Name` (`Space`, `Local`). -/
structure XmlName where
  space : String
  localName : String
deriving DecidableEq

/-- A parsed XML tree: an element with resolved namespace, local name,
attributes (local attribute name, decoded value) and children, or decoded
character data. -/
inductive XmlTree where
  | elem (space localName : String) (attrs : List (String × String)) (children : List XmlTree)
  | text (s : String)

/-- Namespace constants from `xmpp.go`. -/
def nsStream : String := "http://etherx.jabber.org/streams"

def nsTLS : String := "urn:ietf:params:xml:ns:xmpp-tls"

def nsSASL : String := "urn:ietf:params:xml:ns:xmpp-sasl"

def nsBind : String := "urn:ietf:params:xml:ns:xmpp-bind"

def nsClient : String := "jabber:client"

/-- The protocol structure allocated for a dispatched element: one tag per
`case` of the `switch` in `next` (`streamFeatures`, `streamError`,
`tlsStartTLS`, ..., `clientError`). -/
inductive Proto where
  | streamFeatures
  | streamError
  | tlsStartTLS
  | tlsProceed
  | tlsFailure
  | saslMechanisms
  | saslChallenge
  | saslResponse
  | saslAbort
  | saslSuccess
  | saslFailure
  | bindBind
  | message
  | presence
  | iq
  | clientError
deriving DecidableEq

/-- The concatenated dispatch key formed by `next`:
`se.Name.Space + " " + se.Name.Local`. -/
def concatKey (n : XmlName) : String :=
  n.space ++ " " ++ n.localName

/-- The `switch` table of `next` with its concatenated string keys, written
as the source writes them (`nsStream + " features"`, ...), in source
order. -/
def srcSwitch : List (String × Proto) :=
  [ (nsStream ++ " features", .streamFeatures),
    (nsStream ++ " error", .streamError),
    (nsTLS ++ " starttls", .tlsStartTLS),
    (nsTLS ++ " proceed", .tlsProceed),
    (nsTLS ++ " failure", .tlsFailure),
    (nsSASL ++ " mechanisms", .saslMechanisms),
    (nsSASL ++ " challenge", .saslChallenge),
    (nsSASL ++ " response", .saslResponse),
    (nsSASL ++ " abort", .saslAbort),
    (nsSASL ++ " success", .saslSuccess),
    (nsSASL ++ " failure", .saslFailure),
    (nsBind ++ " bind", .bindBind),
    (nsClient ++ " message", .message),
    (nsClient ++ " presence", .presence),
    (nsClient ++ " iq", .iq),
    (nsClient ++ " error", .clientError) ]

/-- The dispatch decision of `next`: sequential comparison of the
concatenated key against the `case` labels, as the Go `switch` performs
it. -/
def dispatchSrc (n : XmlName) : Option Proto :=
  (srcSwitch.find? fun e => e.1 == concatKey n).map Prod.snd

/-- The same sixteen table entries as structured (namespace, local-name)
pairs. -/
def protoTable : List (XmlName × Proto) :=
  [ (⟨nsStream, "features"⟩, .streamFeatures),
    (⟨nsStream, "error"⟩, .streamError),
    (⟨nsTLS, "starttls"⟩, .tlsStartTLS),
    (⟨nsTLS, "proceed"⟩, .tlsProceed),
    (⟨nsTLS, "failure"⟩, .tlsFailure),
    (⟨nsSASL, "mechanisms"⟩, .saslMechanisms),
    (⟨nsSASL, "challenge"⟩, .saslChallenge),
    (⟨nsSASL, "response"⟩, .saslResponse),
    (⟨nsSASL, "abort"⟩, .saslAbort),
    (⟨nsSASL, "success"⟩, .saslSuccess),
    (⟨nsSASL, "failure"⟩, .saslFailure),
    (⟨nsBind, "bind"⟩, .bindBind),
    (⟨nsClient, "message"⟩, .message),
    (⟨nsClient, "presence"⟩, .presence),
    (⟨nsClient, "iq"⟩, .iq),
    (⟨nsClient, "error"⟩, .clientError) ]

/-- Follows the spec's words (§3, §9): dispatch keyed by the structured
(namespace, local) pair with exact field-wise equality.  Used as the
reference against which the concatenated-key dispatch of the source is
compared. -/
def dispatchByPair (n : XmlName) : Option Proto :=
  (protoTable.find? fun e => e.1 == n).map Prod.snd

/-- The error message built by the `default` case of `next` for an
unmapped qualified name. -/
def dispatchErr (n : XmlName) : String :=
  "unexpected XMPP message " ++ n.space ++ " <" ++ n.localName ++ "/>"

/-- The allocation step of `next`: either the protocol structure chosen by
the `switch`, or the `default` case's error. -/
def allocProto (n : XmlName) : Except String Proto :=
  match dispatchSrc n with
  | some p => .ok p
  | none => .error (dispatchErr n)

/-- Whether the storage `next` allocates for a protocol structure is a
pointer.  The source assigns `nv = &T{}` in every case except
`nsSASL + " challenge"` and `nsSASL + " response"`, where it assigns
`nv = ""` — a plain (non-pointer) string value.  `xml.Unmarshal` (hence
`DecodeElement`) rejects a non-pointer destination with the error
"non-pointer passed to Unmarshal". -/
def allocIsPointer : Proto → Bool
  | .saslChallenge => false
  | .saslResponse => false
  | _ => true

/-! ## Stanza structures (RFC 3921 B.1 `jabber:client`, and the handshake
structures read by `Client.init`) -/

/-- Source `type Message struct` from `xmpp.go`: `XMLName`, the `from`/`id`/`to`/
`type` attributes and the `subject`/`body`/`thread` child elements.  `Type'`
embeds the Go field `Type` (whose name is reserved in Lean).  The struct has
no field capturing unmodeled children. -/
structure Message where
  XMLName : XmlName
  From : String
  Id : String
  To : String
  Type' : String
  Subject : String
  Body : String
  Thread : String
deriving DecidableEq

/-- Source `type clientError struct`: `XMLName xml.Name`, `Code`/`Type` attribute
fields (attribute name = Go field name, per the bare `xml:",attr"` tags),
an untagged `Any xml.Name` field and an untagged `Text string` field
(matching sub-elements named `Any` resp. `Text`). -/
structure ClientError where
  XMLName : XmlName
  Code : String
  Type' : String
  Any : XmlName
  Text : String
deriving DecidableEq

/-- Source `type Presence struct`: `XMLName`, eight attribute fields (all tagged
`,attr` in the source, including `show`/`status`/`priority`) and the
`Error *clientError` pointer field (`none` embeds a nil pointer, which
`encoding/xml` marshals as nothing). -/
structure Presence where
  XMLName : XmlName
  From : String
  Id : String
  To : String
  Type' : String
  Lang : String
  Show : String
  Status : String
  Priority : String
  Error : Option ClientError
deriving DecidableEq

/-- Source `type bindBind struct`: `XMLName`, `Resource`, `Jid`. -/
structure BindBind where
  Resource : String
  Jid : String
deriving DecidableEq

/-- Source `type clientIQ struct`: `XMLName`, the four attribute fields, the
`Error clientError` value field and the `Bind bindBind` value field. -/
structure ClientIQ where
  From : String
  Id : String
  To : String
  Type' : String
  Error : ClientError
  Bind : BindBind
deriving DecidableEq

/-- Source `type saslMechanisms struct`: the advertised `<mechanism>` texts. -/
structure SaslMechanisms where
  Mechanism : List String
deriving DecidableEq

/-- Source `type tlsStartTLS struct` (only its `Required` flag, besides the name). -/
structure TlsStartTLS where
  Required : Bool
deriving DecidableEq

/-- Source `type streamFeatures struct`: `StartTLS`, `Mechanisms`, `Bind`,
`Session`. -/
structure StreamFeatures where
  StartTLS : TlsStartTLS
  Mechanisms : SaslMechanisms
  Bind : BindBind
  Session : Bool
deriving DecidableEq

/-! ## Element decoding (`xml.Decoder.DecodeElement` on the structs above) -/

/-- A start element together with the (tree-level) content of the element:
what `nextStart` finds and `DecodeElement` then consumes. -/
structure StartElement where
  space : String
  localName : String
  attrs : List (String × String)
  children : List XmlTree

/-- Attribute lookup: `encoding/xml` walks the attribute list in order and
assigns each match, so the last matching attribute wins; no match leaves
the zero value `""`. -/
def attrVal (attrs : List (String × String)) (name : String) : String :=
  attrs.foldl (fun acc a => if a.1 == name then a.2 else acc) ""

/-- The concatenated top-level character data of an element's content —
what a string field receives.  Character data inside nested child elements
is not included (the decoder skips unmatched sub-elements wholesale). -/
def chardataOf (children : List XmlTree) : String :=
  children.foldl (fun acc c => match c with | .text s => acc ++ s | _ => acc) ""

/-- The value of a string-typed element field matching sub-elements with
local name `fieldLocal` (a tag without a namespace matches any namespace);
each match overwrites, so the last one wins, and no match leaves `""`. -/
def childText (children : List XmlTree) (fieldLocal : String) : String :=
  children.foldl
    (fun acc c => match c with
      | .elem _ l _ ch => if l == fieldLocal then chardataOf ch else acc
      | .text _ => acc)
    ""

/-- The value of an `xml.Name`-typed element field matching sub-elements
with local name `fieldLocal`: unmarshalling into an `xml.Name` records the
matched element's own qualified name; no match leaves the zero name. -/
def childName (children : List XmlTree) (fieldLocal : String) : XmlName :=
  children.foldl
    (fun acc c => match c with
      | .elem sp l _ _ => if l == fieldLocal then ⟨sp, l⟩ else acc
      | .text _ => acc)
    ⟨"", ""⟩

/-- The effect of `DecodeElement` into `&Message{}`: records the element name, reads the
four attributes and the three modeled child elements, and skips every
other child (`<gcm>`, a nested `<error>`, ...) without capturing it —
`Message` has no field that could hold such a capture. -/
def decodeMessage (se : StartElement) : Message where
  XMLName := ⟨se.space, se.localName⟩
  From := attrVal se.attrs "from"
  Id := attrVal se.attrs "id"
  To := attrVal se.attrs "to"
  Type' := attrVal se.attrs "type"
  Subject := childText se.children "subject"
  Body := childText se.children "body"
  Thread := childText se.children "thread"

/-- The effect of `DecodeElement` into `&clientError{}`. -/
def decodeClientError (se : StartElement) : ClientError where
  XMLName := ⟨se.space, se.localName⟩
  Code := attrVal se.attrs "Code"
  Type' := attrVal se.attrs "Type"
  Any := childName se.children "Any"
  Text := childText se.children "Text"

/-- The effect of `DecodeElement` into `&Presence{}`: eight attributes plus the untagged
`Error *clientError` field, which matches a sub-element by the
`clientError` type's XMLName tag `jabber:client error` (both fields must
match exactly, since the tag carries an explicit namespace). -/
def decodePresence (se : StartElement) : Presence where
  XMLName := ⟨se.space, se.localName⟩
  From := attrVal se.attrs "from"
  Id := attrVal se.attrs "id"
  To := attrVal se.attrs "to"
  Type' := attrVal se.attrs "type"
  Lang := attrVal se.attrs "lang"
  Show := attrVal se.attrs "show"
  Status := attrVal se.attrs "status"
  Priority := attrVal se.attrs "priority"
  Error := se.children.foldl
    (fun acc c => match c with
      | .elem sp l a ch =>
          if sp == nsClient && l == "error" then some (decodeClientError ⟨sp, l, a, ch⟩) else acc
      | .text _ => acc)
    none

/-- The value `next` hands back for a dispatched element.  `Recv` inspects
only the `*Message` / `*Presence` alternatives, and `Client.init`'s auth
step additionally inspects `*saslSuccess` / `*saslFailure`; the payloads of
the remaining protocol structures are never read by any operation a claim
is about, so they are abstracted to their dispatch tag. -/
inductive Val where
  | vMessage (m : Message)
  | vPresence (p : Presence)
  | vSaslSuccess
  | vSaslFailure (any : XmlName)
  | vOther (p : Proto)

/-- The decode of one dispatched element into its allocated structure. -/
def decodeProto (p : Proto) (se : StartElement) : Val :=
  match p with
  | .message => .vMessage (decodeMessage se)
  | .presence => .vPresence (decodePresence se)
  | .saslSuccess => .vSaslSuccess
  | .saslFailure => .vSaslFailure (childName se.children "Any")
  | _ => .vOther p

/-! ## The token-stream reader (`nextStart`) and dispatcher (`next`) -/

/-- The terminal outcome of the underlying token stream: a clean
end-of-stream (Go's `io.EOF`, returned by `Token()` on a cleanly closed
transport) or any other read/parse error. -/
inductive TermE where
  | eof
  | err (msg : String)
deriving DecidableEq

/-- The result of an operation that reads the token stream: either an
ordinary returned value, or a process abort — `nextStart` reacts to every
`Token()` error with `log.Fatal`, which prints and calls `os.Exit(1)`,
never returning to the caller. -/
inductive ReadResult (α : Type) where
  | ok (a : α)
  | fatal (e : TermE)

/-- The decoder input: the remaining top-level parsed elements, then the
terminal outcome every further `Token()` call reports. -/
abbrev Stream := List XmlTree × TermE

/-- Source function `nextStart`: scan the token stream for the next start element,
discarding other tokens.  When `Token()` returns an error — including a
clean `io.EOF` — the source calls `log.Fatal("token", err)`: the process
exits and no error value is ever returned to the caller. -/
def nextStart : List XmlTree → TermE → ReadResult (StartElement × List XmlTree)
  | [], t => .fatal t
  | .text _ :: rest, t => nextStart rest t
  | .elem sp lo attrs ch :: rest, _ => .ok (⟨sp, lo, attrs, ch⟩, rest)

/-- The per-element body of `next` after `nextStart`: dispatch the
qualified name through the `switch`, reject the two non-pointer
allocations, otherwise decode into the allocated structure. -/
def elemVal (se : StartElement) : Except String (XmlName × Val) :=
  match allocProto ⟨se.space, se.localName⟩ with
  | .error e => .error e
  | .ok proto =>
      if allocIsPointer proto then
        .ok (⟨se.space, se.localName⟩, decodeProto proto se)
      else
        .error "non-pointer passed to Unmarshal"

/-- Source function `next`: find the next start element and decode it.  Dispatch and
decode failures are returned as ordinary errors; a read failure inside
`nextStart` never reaches this point (the process has already exited). -/
def nextElem (s : Stream) : ReadResult (Except String (XmlName × Val) × Stream) :=
  match nextStart s.1 s.2 with
  | .fatal e => .fatal e
  | .ok (se, rest) => .ok (elemVal se, (rest, s.2))

/-- Source method `Client.Recv`: loop on `next` until a `*Message` or `*Presence` is
produced, returning it; return any error of `next` unchanged; silently
discard every other decoded value.  (The loop body is `nextStart`'s scan
followed by `elemVal`, exactly as `nextElem` performs it.) -/
def recv : List XmlTree → TermE → ReadResult (Except String Val × Stream)
  | [], t => .fatal t
  | .text _ :: rest, t => recv rest t
  | .elem sp lo attrs ch :: rest, t =>
      match elemVal ⟨sp, lo, attrs, ch⟩ with
      | .error e => .ok (.error e, (rest, t))
      | .ok (_, .vMessage m) => .ok (.ok (.vMessage m), (rest, t))
      | .ok (_, .vPresence p) => .ok (.ok (.vPresence p), (rest, t))
      | .ok _ => recv rest t

/-! ## `Client.Send`'s serialization (`xml.Encoder.Encode`), as the parse
of the produced markup

`Encode` writes the element name from the XMLName field's *tag* (the tag
takes precedence over the field's value), attribute fields in struct
order, then one child element per element field.  The trees below are the
re-parse of that output: children written without an explicit `xmlns`
inherit the enclosing default namespace `jabber:client`. -/

/-- The `Encode` output for a `clientError` value (as a `Presence`'s `Error` child):
element name from the type's XMLName tag, `Code`/`Type` attributes, then
the untagged `Any xml.Name` field marshalled as a plain two-field struct
under the field's name and the `Text` field as a `<Text>` child.  (No
theorem below depends on the `Any` sub-tree: every documented reading of
`encoding/xml` agrees that an `xml.Name` field does not survive a
marshal/unmarshal round trip, which is all the counterexample uses.) -/
def encodeClientError (e : ClientError) : XmlTree :=
  .elem nsClient "error" [("Code", e.Code), ("Type", e.Type')]
    [ .elem nsClient "Any" []
        [ .elem nsClient "Space" [] [.text e.Any.space],
          .elem nsClient "Local" [] [.text e.Any.localName] ],
      .elem nsClient "Text" [] [.text e.Text] ]

/-- The `Encode` output for a `Message` value: name `jabber:client message` from the
tag (whatever the XMLName field holds), the four attributes, the three
child elements. -/
def encodeMessage (m : Message) : XmlTree :=
  .elem nsClient "message"
    [("from", m.From), ("id", m.Id), ("to", m.To), ("type", m.Type')]
    [ .elem nsClient "subject" [] [.text m.Subject],
      .elem nsClient "body" [] [.text m.Body],
      .elem nsClient "thread" [] [.text m.Thread] ]

/-- The `Encode` output for a `Presence` value: the eight attributes; a nil `Error`
pointer marshals as nothing, a non-nil one as its `clientError` child. -/
def encodePresence (p : Presence) : XmlTree :=
  .elem nsClient "presence"
    [ ("from", p.From), ("id", p.Id), ("to", p.To), ("type", p.Type'),
      ("lang", p.Lang), ("show", p.Show), ("status", p.Status), ("priority", p.Priority) ]
    (match p.Error with
     | none => []
     | some e => [encodeClientError e])

/-! ## The negotiation state machine (`Client.init`)

`Client.init` performs a fixed sequence of writes and blocking reads.  The
reads are abstracted into an `InitScript`: the result each read/decode
step of the server's side produces.  The writes are recorded as
`WriteEvent`s so that "fails before writing" properties are statable. -/

/-- The wire writes `Client.init` performs, in order. -/
inductive WriteEvent where
  | streamHeader (domain : String)
  | auth (mechanism : String)
  | iqBind
  | initialPresence
deriving DecidableEq

/-- The errors `Client.init` can construct, one constructor per
`errors.New`/`fmt` site, each carrying the data interpolated into the
message.  `missingBind` is the `"<iq> result missing <bind>"` site. -/
inductive InitErr where
  | invalidUsername (user : String)
  | expectedStream1 (got : XmlName)
  | unmarshalFeatures (e : String)
  | plainNotOption (ms : List String)
  | authFailure (reason : String)
  | expectedSuccess (got : XmlName)
  | expectedStream2 (got : XmlName)
  | unmarshalIq (e : String)
  | missingBind
deriving DecidableEq

/-- Go's `fmt` rendering of a `[]string`, as `%v` prints it. -/
def goFmtStrings (ms : List String) : String :=
  "[" ++ String.intercalate " " ms ++ "]"

/-- The exact message text of each `Client.init` error site. -/
def InitErr.message : InitErr → String
  | .invalidUsername user => "xmpp: invalid username (want user@domain): " ++ user
  | .expectedStream1 got =>
      "xmpp: expected <stream> but got <" ++ got.localName ++ "> in " ++ got.space
  | .unmarshalFeatures e => "unmarshal <features>: " ++ e
  | .plainNotOption ms => "PLAIN authentication is not an option: " ++ goFmtStrings ms
  | .authFailure reason => "auth failure: " ++ reason
  | .expectedSuccess got =>
      "expected <success> or <failure>, got <" ++ got.localName ++ "> in " ++ got.space
  | .expectedStream2 got => "expected <stream>, got <" ++ got.localName ++ "> in " ++ got.space
  | .unmarshalIq e => "unmarshal <iq>: " ++ e
  | .missingBind => "<iq> result missing <bind>"

/-- Split a character list at its first `'@'`. -/
def splitAtSep : List Char → Option (List Char × List Char)
  | [] => none
  | c :: rest =>
      if c = '@' then some ([], rest)
      else match splitAtSep rest with
        | none => none
        | some (u, d) => some (c :: u, d)

/-- The split `strings.SplitN(user, "@", 2)` as `Client.init` uses it: `none` when
`user` contains no `@` (`len(a) != 2`), otherwise the part before the
first `@` and everything after it. -/
def splitUserDomain (user : String) : Option (String × String) :=
  (splitAtSep user.data).map fun p => (⟨p.1⟩, ⟨p.2⟩)

/-- The mechanism scan of `Client.init`: the loop over
`f.Mechanisms.Mechanism` setting `havePlain` when one equals `"PLAIN"`. -/
def havePlain (ms : List String) : Bool :=
  ms.any (· == "PLAIN")

/-- The selection step of `Client.init` (lines 168–184) in isolation: go
on with `"PLAIN"` when it is advertised, otherwise fail — the advertised
set is consulted for no other mechanism, and no policy flag exists. -/
def authMechanismSrc (ms : List String) : Except String String :=
  if havePlain ms then .ok "PLAIN"
  else .error ("PLAIN authentication is not an option: " ++ goFmtStrings ms)

/-- Modelled from the spec: §4.4 "SASL Mechanism Selector — given the
advertised mechanism set and a policy flag `prefer external`, select
EXTERNAL if policy requests it and it is advertised; otherwise select
PLAIN if advertised; otherwise fail."  The repository's selector taking
the `Options.AuthExternal` policy flag is not part of this source
snapshot — only its test (`TestMechanism` in `xmpp_test.go`) is. -/
def selectMechanismSpec (advertised : List String) (preferExternal : Bool) : Option String :=
  if preferExternal && advertised.contains "EXTERNAL" then some "EXTERNAL"
  else if advertised.contains "PLAIN" then some "PLAIN"
  else none

/-- The outcome of each read/decode step of `Client.init`, in protocol
order: the first stream root (`nextStart`), the first `<features>` decode,
the auth-result `next()` call, the second stream root, the second
`<features>` decode, and the `<iq>` bind-result decode. -/
structure InitScript where
  root1 : XmlName
  features1 : Except String StreamFeatures
  auth : Except String (XmlName × Val)
  root2 : XmlName
  features2 : Except String StreamFeatures
  iq : Except String ClientIQ

/-- Go compares the *address* of the value field `iq.Bind` against `nil`
(`&iq.Bind == nil`); the address of a struct field is never nil, so the
comparison is identically false and the missing-`<bind>` branch is dead
code. -/
def bindIsNil (_ : ClientIQ) : Bool := false

/-- Source method `Client.init`, step for step: split the username, write
the stream header, check the stream root, decode `<features>`, require
PLAIN among the advertised mechanisms, write the `<auth>` element, read
the auth result (note the source ignores `next`'s error value here: a
failed read leaves `val` nil and `name` zero, landing in the `default`
branch), write the second stream header, check the second stream root,
decode the second `<features>` with the error explicitly discarded
(empty `if` body), write the bind `<iq>`, decode the reply, run the dead
missing-`<bind>` check, record the jid and write the initial presence.
Returns the writes performed and the bound jid or the first error. -/
def clientInit (user : String) (_passwd : String) (s : InitScript) :
    List WriteEvent × Except InitErr String :=
  match splitUserDomain user with
  | none => ([], .error (.invalidUsername user))
  | some (_u, domain) =>
    let w0 := [WriteEvent.streamHeader domain]
    if s.root1.space ≠ nsStream ∨ s.root1.localName ≠ "stream" then
      (w0, .error (.expectedStream1 s.root1))
    else
      match s.features1 with
      | .error e => (w0, .error (.unmarshalFeatures e))
      | .ok f =>
        if havePlain f.Mechanisms.Mechanism then
          let w1 := w0 ++ [WriteEvent.auth "PLAIN"]
          match s.auth with
          | .error _ => (w1, .error (.expectedSuccess ⟨"", ""⟩))
          | .ok (name, val) =>
            match val with
            | .vSaslFailure any => (w1, .error (.authFailure any.localName))
            | .vSaslSuccess =>
              let w2 := w1 ++ [WriteEvent.streamHeader domain]
              if s.root2.space ≠ nsStream ∨ s.root2.localName ≠ "stream" then
                (w2, .error (.expectedStream2 s.root2))
              else
                let w3 := w2 ++ [WriteEvent.iqBind]
                match s.iq with
                | .error e => (w3, .error (.unmarshalIq e))
                | .ok iq =>
                  if bindIsNil iq then
                    (w3, .error .missingBind)
                  else
                    (w3 ++ [WriteEvent.initialPresence], .ok iq.Bind.Jid)
            | _ => (w1, .error (.expectedSuccess name))
        else
          (w0, .error (.plainNotOption f.Mechanisms.Mechanism))

/-! ## Concrete inputs used by individual theorems -/

/-- The Go zero value of `clientError`. -/
def zeroClientError : ClientError := ⟨⟨"", ""⟩, "", "", ⟨"", ""⟩, ""⟩

/-- The Go zero value of `clientIQ`: in particular its `Bind` field is the
zero `bindBind`, exactly what decoding an `<iq>` reply *without* a
`<bind>` child leaves behind. -/
def zeroIQ : ClientIQ := ⟨"", "", "", "", zeroClientError, ⟨"", ""⟩⟩

/-- A `streamFeatures` value advertising the given mechanisms. -/
def featuresWith (ms : List String) : StreamFeatures := ⟨⟨false⟩, ⟨ms⟩, ⟨"", ""⟩, false⟩

/-- A well-behaved server script: correct stream roots, the given
mechanism advertisement, SASL success, empty second features, and a bind
reply that decodes but carries no `<bind>` child (the zero `clientIQ`). -/
def okScript (ms : List String) : InitScript where
  root1 := ⟨nsStream, "stream"⟩
  features1 := .ok (featuresWith ms)
  auth := .ok (⟨nsSASL, "success"⟩, .vSaslSuccess)
  root2 := ⟨nsStream, "stream"⟩
  features2 := .ok (featuresWith [])
  iq := .ok zeroIQ

/-- A server advertising only X-OAUTH2. -/
def xoauthOnlyScript : InitScript := okScript ["X-OAUTH2"]

/-- A server advertising EXTERNAL, PLAIN and X-OAUTH2 (the advertisement
of `TestMechanism`'s first two cases). -/
def fullMechScript : InitScript := okScript ["EXTERNAL", "PLAIN", "X-OAUTH2"]

/-- A script whose *first* `<features>` decode fails. -/
def featErrScript : InitScript := { okScript ["PLAIN"] with features1 := .error "boom" }

/-- The received message of `TestStanzaError` (`xmpp_test.go`), as its
parsed tree: type `error`, a custom-namespace `<gcm>` child (chardata
shown entity-decoded) and a nested multi-child `<error>` element; the
bare `<error>` and its children inherit / carry their resolved
namespaces. -/
def stanzaMessage : XmlTree :=
  .elem nsClient "message"
    [("id", "3"), ("type", "error"), ("to", "123456789@gcm.googleapis.com/ABC")]
    [ .text "\n\t",
      .elem "google:mobile:data" "gcm" [] [.text "\n\t\t\x7b\"random\": \"<text>\"\x7d\n\t"],
      .text "\n\t",
      .elem nsClient "error" [("code", "400"), ("type", "modify")]
        [ .text "\n\t\t",
          .elem "urn:ietf:params:xml:ns:xmpp-stanzas" "bad-request" [] [],
          .text "\n\t\t",
          .elem "urn:ietf:params:xml:ns:xmpp-stanzas" "text" []
            [.text "\n\t\t\tInvalidJson: JSON_PARSING_ERROR : Missing Required Field: message_id\\n\n\t\t"],
          .text "\n\t" ],
      .text "\n" ]

/-- What decoding `stanzaMessage` into `Message` leaves: the modeled
attributes, and *nothing* of the `<gcm>` and `<error>` children. -/
def stanzaDecoded : Message :=
  ⟨⟨nsClient, "message"⟩, "", "3", "123456789@gcm.googleapis.com/ABC", "error", "", "", ""⟩

/-- A well-formed `Message` whose XMLName field holds the canonical name. -/
def roundtripMsg : Message :=
  ⟨⟨nsClient, "message"⟩, "alice@example.com", "42", "bob@example.com", "chat", "hi", "hello", "th1"⟩

/-- A well-formed error-free `Presence` with the canonical XMLName. -/
def roundtripPres : Presence :=
  ⟨⟨nsClient, "presence"⟩, "alice@example.com", "43", "bob@example.com", "", "en", "xa", "away", "1", none⟩

/-- A `Message` whose XMLName field is the zero `xml.Name` (the value a
caller gets from `Message{}` without setting `XMLName`). -/
def mBad : Message := ⟨⟨"", ""⟩, "", "", "", "", "", "", ""⟩

/-- An error child whose `Any` field holds a non-trivial name. -/
def pBadErr : ClientError := ⟨⟨nsClient, "error"⟩, "", "", ⟨"x", "y"⟩, ""⟩

/-- A `Presence` with canonical names throughout but a non-nil error
child. -/
def pBad : Presence := ⟨⟨nsClient, "presence"⟩, "", "", "", "", "", "", "", "", some pBadErr⟩

/-! ## Helper lemmas -/

/-- String append acts as list append on the underlying character data. -/
lemma dataAppend (s t : String) : (s ++ t).data = s.data ++ t.data := by
  cases s; cases t; rfl

/-- A list split at a distinguished element is unique when neither right
part contains that element: the generic injectivity behind both the
concatenated dispatch key and the unmapped-name error message. -/
lemma appendConsInj {α : Type} (sp : α) :
    ∀ (a c : List α) {b d : List α}, sp ∉ b → sp ∉ d →
      (a ++ sp :: b = c ++ sp :: d ↔ a = c ∧ b = d) := by
  intro a
  induction a with
  | nil =>
    intro c b d hb hd
    cases c with
    | nil => simp
    | cons x c' =>
      simp only [List.nil_append, List.cons_append, List.cons.injEq]
      constructor
      · rintro ⟨rfl, h2⟩
        exact absurd (h2.symm ▸ List.mem_append_right c' (List.mem_cons_self sp d)) hb
      · rintro ⟨h, -⟩
        exact absurd h (List.cons_ne_nil x c').symm
  | cons x a' ih =>
    intro c b d hb hd
    cases c with
    | nil =>
      simp only [List.cons_append, List.nil_append, List.cons.injEq]
      constructor
      · rintro ⟨rfl, h2⟩
        exact absurd (h2 ▸ List.mem_append_right a' (List.mem_cons_self x b)) hd
      · rintro ⟨h, -⟩
        exact absurd h (List.cons_ne_nil x a')
    | cons y c' =>
      simp only [List.cons_append, List.cons.injEq]
      rw [ih c' hb hd]
      tauto

/-- The concatenated dispatch key is injective on names whose local part
is free of the separator character — XML local names never contain a
space, and a space inside the *namespace* field only shifts the split
without colliding with any space-free-local key. -/
lemma concatKeyInj {n m : XmlName} (hn : ' ' ∉ n.localName.data)
    (hm : ' ' ∉ m.localName.data) : concatKey n = concatKey m ↔ n = m := by
  constructor
  · intro h
    have h' := congrArg String.data h
    rw [concatKey, concatKey, dataAppend, dataAppend, dataAppend, dataAppend] at h'
    have hsp : (" " : String).data = [' '] := rfl
    rw [hsp, List.append_assoc, List.append_assoc, List.singleton_append,
      List.singleton_append] at h'
    obtain ⟨h1, h2⟩ := (appendConsInj ' ' _ _ hn hm).mp h'
    cases n with
    | mk ns nl =>
      cases m with
      | mk ms ml =>
        simp only at h1 h2
        rw [String.ext h1, String.ext h2]
  · rintro rfl
    rfl

/-- Looking a concatenated key up in a concatenated-key table is the same
as looking the structured pair up in the pair table, provided every local
name involved is separator-free. -/
lemma findConcatEq (n : XmlName) (hn : ' ' ∉ n.localName.data) :
    ∀ (T : List (XmlName × Proto)), (∀ e ∈ T, ' ' ∉ e.1.localName.data) →
      ((T.map fun e => (concatKey e.1, e.2)).find? fun e => e.1 == concatKey n).map Prod.snd
        = (T.find? fun e => e.1 == n).map Prod.snd := by
  intro T
  induction T with
  | nil => intro _; rfl
  | cons e T ih =>
    intro hT
    have he : ' ' ∉ e.1.localName.data := hT e (List.mem_cons_self e T)
    have hrest : ∀ e' ∈ T, ' ' ∉ e'.1.localName.data :=
      fun e' h' => hT e' (List.mem_cons_of_mem e h')
    by_cases h : e.1 = n
    · simp [List.find?_cons, h, (concatKeyInj he hn).mpr h]
    · have h2 : concatKey e.1 ≠ concatKey n := fun hc => h ((concatKeyInj he hn).mp hc)
      simp only [List.map_cons, List.find?_cons]
      rw [show ((e.1, e.2).1 == n) = false from beq_eq_false_iff_ne.mpr h,
        show ((concatKey e.1, e.2).1 == concatKey n) = false from beq_eq_false_iff_ne.mpr h2]
      exact ih hrest

/-! ## Claim theorems -/

/-- Claim C5: for every start element whose local name is free of the
separator character — the XML tokenizer never produces a local name
containing a space — the concatenated-string dispatch of `next` selects
exactly the table entry whose (namespace, local-name) pair equals the
element's name field-wise: the concatenation conflates no two distinct
qualified names, even when a space appears inside the namespace field
(a space in the namespace only shifts the split away from every table
key, all of whose local parts are space-free). -/
theorem dispatch_exact_pairwise (s l : String) (hl : ' ' ∉ l.data) :
    dispatchSrc ⟨s, l⟩ = dispatchByPair ⟨s, l⟩ := by
  have hT : ∀ e ∈ protoTable, ' ' ∉ e.1.localName.data := by decide
  have hsrc : srcSwitch = protoTable.map fun e => (concatKey e.1, e.2) := by decide
  rw [dispatchSrc, dispatchByPair, hsrc]
  exact findConcatEq ⟨s, l⟩ hl protoTable hT

/-- Witness for C5 at a concrete qualified name. -/
theorem dispatch_exact_pairwise_witness :
    dispatchSrc ⟨"jabber:client", "message"⟩ = dispatchByPair ⟨"jabber:client", "message"⟩ :=
  dispatch_exact_pairwise "jabber:client" "message" (by decide)

/-- Claim C6: for every qualified name absent from the dispatch table,
`next` fails with an error whose message embeds exactly that namespace and
that local name (it is an error return, not a silent skip): the message is
the literal `"unexpected XMPP message " ++ space ++ " <" ++ local ++ "/>"`,
both fields occur in it verbatim, and — since an XML local name never
contains `<` — the message determines the qualified name uniquely. -/
theorem unmapped_dispatch_error (n : XmlName) (h : dispatchSrc n = none) :
    allocProto n =
      .error ("unexpected XMPP message " ++ n.space ++ " <" ++ n.localName ++ "/>")
    ∧ n.space.data <:+: (dispatchErr n).data
    ∧ n.localName.data <:+: (dispatchErr n).data
    ∧ ∀ m : XmlName, '<' ∉ n.localName.data → '<' ∉ m.localName.data →
        dispatchErr m = dispatchErr n → m = n := by
  have key : ∀ s l : String, (dispatchErr ⟨s, l⟩).data
      = ("unexpected XMPP message ".data ++ s.data ++ [' '])
          ++ '<' :: (l.data ++ ['/', '>']) := by
    intro s l
    have h1 : (" <" : String).data = [' ', '<'] := rfl
    have h2 : ("/>" : String).data = ['/', '>'] := rfl
    simp [dispatchErr, dataAppend, h1, h2, List.append_assoc]
  refine ⟨by rw [allocProto, h]; rfl, ?_, ?_, ?_⟩
  · exact ⟨"unexpected XMPP message ".data, (" <" ++ n.localName ++ "/>").data,
      by simp [dispatchErr, dataAppend, List.append_assoc]⟩
  · exact ⟨("unexpected XMPP message " ++ n.space ++ " <").data, ("/>" : String).data,
      by simp [dispatchErr, dataAppend, List.append_assoc]⟩
  · intro m hn hm heq
    have hd := congrArg String.data heq
    rw [show dispatchErr m = dispatchErr ⟨m.space, m.localName⟩ from rfl,
      show dispatchErr n = dispatchErr ⟨n.space, n.localName⟩ from rfl, key, key] at hd
    have hmB : '<' ∉ m.localName.data ++ ['/', '>'] := by
      intro hc
      rcases List.mem_append.mp hc with hc | hc
      · exact hm hc
      · simp at hc
    have hnB : '<' ∉ n.localName.data ++ ['/', '>'] := by
      intro hc
      rcases List.mem_append.mp hc with hc | hc
      · exact hn hc
      · simp at hc
    obtain ⟨hA, hB⟩ := (appendConsInj '<' _ _ hmB hnB).mp hd
    have hloc : m.localName = n.localName :=
      String.ext (List.append_cancel_right hB)
    have hsp : m.space = n.space := by
      have := List.append_cancel_right hA
      exact String.ext (List.append_cancel_left this)
    cases m with
    | mk ms ml =>
      cases n with
      | mk ns nl =>
        simp only at hloc hsp
        rw [hloc, hsp]

/-- Witness for C6 at a concrete unmapped qualified name. -/
theorem unmapped_dispatch_error_witness :
    allocProto ⟨"foo", "bar"⟩ =
      .error ("unexpected XMPP message " ++ "foo" ++ " <" ++ "bar" ++ "/>") :=
  (unmapped_dispatch_error ⟨"foo", "bar"⟩ (by decide)).1

/-- Claim C10: `(nsSASL, challenge)` and `(nsSASL, response)` are present
in the dispatch table, but their cases allocate the non-pointer value
`""`, so for *every* received challenge or response element — whatever its
attributes, content and position in the stream — `DecodeElement` fails
with "non-pointer passed to Unmarshal" and `next` returns that error
instead of a decoded value. -/
theorem challenge_response_decode_error :
    dispatchSrc ⟨nsSASL, "challenge"⟩ = some .saslChallenge
    ∧ dispatchSrc ⟨nsSASL, "response"⟩ = some .saslResponse
    ∧ ∀ (attrs : List (String × String)) (children rest : List XmlTree) (t : TermE),
        elemVal ⟨nsSASL, "challenge", attrs, children⟩
          = .error "non-pointer passed to Unmarshal"
        ∧ elemVal ⟨nsSASL, "response", attrs, children⟩
          = .error "non-pointer passed to Unmarshal"
        ∧ nextElem (.elem nsSASL "challenge" attrs children :: rest, t)
            = .ok (.error "non-pointer passed to Unmarshal", (rest, t))
        ∧ nextElem (.elem nsSASL "response" attrs children :: rest, t)
            = .ok (.error "non-pointer passed to Unmarshal", (rest, t))
        ∧ ∀ s : String,
            nextElem (.text s :: .elem nsSASL "challenge" attrs children :: rest, t)
              = .ok (.error "non-pointer passed to Unmarshal", (rest, t)) :=
  ⟨rfl, rfl, fun _ _ _ _ => ⟨rfl, rfl, rfl, rfl, fun _ => rfl⟩⟩

/-- Claim C2: a read failure in the lowest-layer token loop is *not*
returned as an ordinary error value — `nextStart` reacts to every
`Token()` error, clean end-of-stream included, with `log.Fatal`, so the
process exits and neither the dispatcher (`next`) nor any caller above it
ever receives an error value to propagate. -/
theorem read_error_is_fatal :
    ∀ e : TermE,
      nextStart [] e = .fatal e
      ∧ nextElem ([], e) = .fatal e
      ∧ recv [] e = .fatal e
      ∧ ∀ s : String, nextStart [XmlTree.text s] e = .fatal e :=
  fun _e => ⟨rfl, rfl, rfl, fun _ => rfl⟩

/-- Claim C4: on an exhausted transport (zero elements, clean close),
`Recv()` does not return `io.EOF` as an ordinary error result — the
`log.Fatal` inside `nextStart` aborts the process instead. -/
theorem recv_eof_fatal :
    recv [] TermE.eof = .fatal TermE.eof
    ∧ ∀ r : Except String Val × Stream, recv [] TermE.eof ≠ .ok r :=
  ⟨rfl, fun _ h => nomatch h⟩

/-- Claim C3: decoding the `TestStanzaError` message (type `error`, with a
custom-namespace `<gcm>` child and a nested multi-child `<error>` child)
yields a `Message` whose `Type` field is `"error"` but which carries *no*
capture of the unmodeled children: `Message` has only the
`Subject`/`Body`/`Thread` string fields, all of which stay empty — the
`<gcm>` and `<error>` markup is discarded entirely. -/
theorem stanza_error_discards_children :
    recv [stanzaMessage] TermE.eof
      = .ok (.ok (.vMessage stanzaDecoded), ([], .eof))
    ∧ stanzaDecoded.Type' = "error"
    ∧ stanzaDecoded.Subject = ""
    ∧ stanzaDecoded.Body = ""
    ∧ stanzaDecoded.Thread = "" :=
  ⟨rfl, rfl, rfl, rfl, rfl⟩

/-- Claim C1: `Client.init` has no "prefer external" policy and never
selects EXTERNAL — facing the advertisement {EXTERNAL, PLAIN, X-OAUTH2} it
authenticates with PLAIN (where the spec's selector, modelled alongside,
chooses EXTERNAL under `preferExternal = true`); only the fail-closed part
holds: with no PLAIN advertised it errors before any auth element is
written. -/
theorem sasl_selection_src_plain_only :
    selectMechanismSpec ["EXTERNAL", "PLAIN", "X-OAUTH2"] true = some "EXTERNAL"
    ∧ authMechanismSrc ["EXTERNAL", "PLAIN", "X-OAUTH2"] = .ok "PLAIN"
    ∧ (clientInit "user@domain" "pw" fullMechScript).1 =
        [.streamHeader "domain", .auth "PLAIN", .streamHeader "domain",
         .iqBind, .initialPresence]
    ∧ (clientInit "user@domain" "pw" xoauthOnlyScript).2 =
        .error (.plainNotOption ["X-OAUTH2"])
    ∧ (clientInit "user@domain" "pw" xoauthOnlyScript).1 = [.streamHeader "domain"]
    ∧ (InitErr.plainNotOption ["X-OAUTH2"]).message
        = "PLAIN authentication is not an option: [X-OAUTH2]" :=
  ⟨rfl, rfl, rfl, rfl, rfl, rfl⟩

/-- Claim C7: a decode failure on the *first* `<features>` element aborts
negotiation with the `unmarshal <features>` error, while the result of
`Client.init` does not depend on the second `<features>` decode outcome at
all — a failure there is tolerated and negotiation continues to the bind
step unchanged. -/
theorem features_decode_tolerance (user passwd : String) (s : InitScript)
    (hu : (splitUserDomain user).isSome = true)
    (h1 : s.root1 = ⟨nsStream, "stream"⟩) :
    (∀ e, s.features1 = .error e →
        (clientInit user passwd s).2 = .error (.unmarshalFeatures e)
        ∧ (InitErr.unmarshalFeatures e).message = "unmarshal <features>: " ++ e)
    ∧ ∀ f f' : Except String StreamFeatures, ∀ s' : InitScript,
        clientInit user passwd { s' with features2 := f }
          = clientInit user passwd { s' with features2 := f' } := by
  constructor
  · intro e he
    obtain ⟨⟨u, d⟩, hsplit⟩ := Option.isSome_iff_exists.mp hu
    refine ⟨?_, rfl⟩
    simp [clientInit, hsplit, h1, he]
  · intro f f' s'
    cases s'
    rfl

/-- Witness for C7 at a concrete script whose first features decode
fails. -/
theorem features_decode_tolerance_witness :
    (clientInit "user@domain" "pw" featErrScript).2
      = .error (.unmarshalFeatures "boom") :=
  ((features_decode_tolerance "user@domain" "pw" featErrScript rfl rfl).1 "boom" rfl).1

/-- Claim C8: the missing-`<bind>` guard of `Client.init` compares the
address of a value field against nil and is therefore dead code — *no*
execution of `Client.init` returns the `"<iq> result missing <bind>"`
error; on a bind reply without a `<bind>` child (the zero `clientIQ`),
`init` instead succeeds and silently sets the session jid to `""`. -/
theorem bind_missing_check_dead :
    (∀ (user passwd : String) (s : InitScript),
        (clientInit user passwd s).2 ≠ .error .missingBind)
    ∧ (clientInit "user@domain" "pw" (okScript ["PLAIN"])).2 = .ok ""
    ∧ (clientInit "user@domain" "pw" (okScript ["PLAIN"])).1 =
        [.streamHeader "domain", .auth "PLAIN", .streamHeader "domain",
         .iqBind, .initialPresence] := by
  refine ⟨?_, rfl, rfl⟩
  intro user passwd s
  unfold clientInit
  repeat' split
  all_goals simp_all [bindIsNil]

/-- Claim C9 (amended): for every `Message` whose `XMLName` field holds
the canonical qualified name, and every `Presence` whose `XMLName` is
canonical and whose `Error` field is nil, `Send`'s serialization followed
by the dispatcher's decode yields a structurally equal value. -/
theorem send_recv_roundtrip (m : Message) (p : Presence)
    (hm : m.XMLName = ⟨nsClient, "message"⟩)
    (hp : p.XMLName = ⟨nsClient, "presence"⟩)
    (he : p.Error = none) :
    nextElem ([encodeMessage m], .eof)
      = .ok (.ok (⟨nsClient, "message"⟩, .vMessage m), ([], .eof))
    ∧ nextElem ([encodePresence p], .eof)
      = .ok (.ok (⟨nsClient, "presence"⟩, .vPresence p), ([], .eof)) := by
  cases m with
  | mk mxn mf mi mt mty msu mbo mth =>
    cases p with
    | mk pxn pf pi pt pty pl psh pst ppr perr =>
      simp only at hm hp he
      subst hm hp he
      exact ⟨rfl, rfl⟩

/-- Witness for C9's amended round trip at concrete stanzas. -/
theorem send_recv_roundtrip_witness :
    nextElem ([encodeMessage roundtripMsg], .eof)
      = .ok (.ok (⟨nsClient, "message"⟩, .vMessage roundtripMsg), ([], .eof)) :=
  (send_recv_roundtrip roundtripMsg roundtripPres rfl rfl rfl).1

/-- Counterexample to claim C9 as stated: a `Message` whose `XMLName`
field is the zero value decodes back with the canonical name (the decoder
records the element name), so encode-then-decode is not the identity on
every value; likewise a `Presence` carrying an error child loses the
child's `Any` name field in the round trip. -/
theorem roundtrip_counterexample :
    (nextElem ([encodeMessage mBad], .eof)
       = .ok (.ok (⟨nsClient, "message"⟩,
           .vMessage ⟨⟨nsClient, "message"⟩, "", "", "", "", "", "", ""⟩), ([], .eof))
     ∧ (⟨⟨nsClient, "message"⟩, "", "", "", "", "", "", ""⟩ : Message) ≠ mBad)
    ∧ (nextElem ([encodePresence pBad], .eof)
       = .ok (.ok (⟨nsClient, "presence"⟩,
           .vPresence ⟨⟨nsClient, "presence"⟩, "", "", "", "", "", "", "", "",
             some ⟨⟨nsClient, "error"⟩, "", "", ⟨nsClient, "Any"⟩, ""⟩⟩), ([], .eof))
     ∧ (⟨⟨nsClient, "presence"⟩, "", "", "", "", "", "", "", "",
          some ⟨⟨nsClient, "error"⟩, "", "", ⟨nsClient, "Any"⟩, ""⟩⟩ : Presence) ≠ pBad) :=
  ⟨⟨rfl, by decide⟩, ⟨rfl, by decide⟩⟩

end Xmpp
